import Mathlib

/-!
Verification of the task-splitting orchestrator and the historical-data
tools of the stock-analysis assistant (repository `stock_mcp`).

The development shallowly embeds:

* `src/agents/split_task_agent.py`, `SplitTaskAgent._run` (lines 65–116):
  the three-phase plan / execute / summarize orchestration loop, including
  its streaming emissions, its JSON-decode fallback path, and the Python
  exceptions its code can raise (modelled explicitly as a `raised` outcome);
* `src/mcp_tools/base_tool.py` (`_success_response`, `_error_response`,
  `_json_serializable`) and `src/mcp_tools/historical_data_tool.py`
  (`MCPHistoricalDataTool.execute`);
* `src/zh_mcp_tools/zh_historical_data_tool.py`
  (`ZHMCPHistoricalDataTool.execute`).

External collaborators are abstracted exactly at the boundary where the
repository calls them:

* the qwen-agent `Agent.run` streaming primitive is an arbitrary function
  `List Message → List (List Message)` (a finite sequence of snapshot
  emissions), wrapped in `AgentBehavior`;
* Python's `json.loads` is an arbitrary parse oracle
  `String → Option JValue` (`none` models `json.JSONDecodeError`);
* the yfinance / akshare network fetches are arbitrary `FetchResult` /
  `ZHFetchResult` values (data frame, emptiness, or a raised exception);
* floating-point statistics whose exact value no claim mentions
  (the standard-deviation based `volatility`) are abstracted as a
  parameter function; all other numeric fields are computed over `Rat`
  (float rounding itself is irrelevant to every verified property).
-/

/-- One structured content item of a qwen-agent message (`ContentItem`);
only the `text` payload is relevant to the orchestrator. -/
structure ContentItem where
  text : String
deriving DecidableEq, Repr

/-- The `content` field of a qwen-agent `Message`: either a plain string or
a structured list of content items (the two shapes the framework uses). -/
inductive Content where
  | str (s : String)
  | items (xs : List ContentItem)
deriving DecidableEq, Repr

/-- A conversation message (`qwen_agent.llm.schema.Message`), reduced to the
fields the orchestrator reads or writes. -/
structure Message where
  role : String
  content : Content
deriving DecidableEq, Repr

instance : Inhabited Message := ⟨⟨"", Content.str ""⟩⟩

/-- A JSON value, the result type of Python's `json.loads`. -/
inductive JValue where
  | null
  | bool (b : Bool)
  | num (n : Int)
  | str (s : String)
  | arr (elems : List JValue)
  | obj (fields : List (String × JValue))

/-- Python dict lookup `d[k]` on a JSON object. `json.loads` keeps the last
value for a duplicated key, hence the reversed search. -/
def jlookup (fields : List (String × JValue)) (k : String) : Option JValue :=
  (fields.reverse.find? (fun p => p.1 == k)).map (fun p => p.2)

/-- An external qwen-agent `Agent`: `run(messages)` produces a finite
sequence of snapshot emissions, each a list of messages. -/
structure AgentBehavior where
  run : List Message → List (List Message)

/-- The contract the spec states for the external Agent primitive: within
one call, each emission extends the previous one by appending. -/
def SnapLE (a b : List Message) : Prop := ∃ t, b = a ++ t

/-- Outcome of one orchestration run: the direct-response fallback path, a
normal completion through all three phases, or an uncaught Python
exception (named by the exception class it models). -/
inductive RunOutcome where
  | fallbackDone
  | completed
  | raised (err : String)
deriving DecidableEq, Repr

/-- Observable trace of one `SplitTaskAgent._run` generator run:
every snapshot yielded to the caller, every transcript passed to the main
(planner) agent and to the sub (executor) agent, the collected
`sub_task_results`, and how the run ended. -/
structure RunTrace where
  emissions : List (List Message)
  mainCalls : List (List Message)
  subCalls : List (List Message)
  subTaskResults : List Content
  outcome : RunOutcome
deriving DecidableEq, Repr

/-- The instruction item appended to the copied transcript in the plan
phase (`split_task_agent.py` lines 74–75). -/
def planInstructionItem : ContentItem :=
  ⟨"根据可使用的工具和上面的问题，将问题拆解成多个子任务，并以json格式返回，不要直接调用方法"⟩

/-- The fixed summarization instruction (`split_task_agent.py` line 108). -/
def summaryInstruction : String := "请帮我汇总以下信息，并进行总结。不要使用json格式。"

/-- Lines 73–75: deep-copy the transcript and append the plan instruction to
the last message's content. `new_messages[-1]` raises `IndexError` on an
empty transcript, and `.append` raises `AttributeError` when the content is
a plain string (Python `str` has no `append`). -/
def appendPlanInstruction (ms : List Message) : Except String (List Message) :=
  match ms.getLast? with
  | none => Except.error "IndexError"
  | some m =>
    match m.content with
    | Content.str _ => Except.error "AttributeError"
    | Content.items xs =>
      Except.ok (ms.dropLast ++ [⟨m.role, Content.items (xs ++ [planInstructionItem])⟩])

/-- Line 96 `sub_task['task']` followed by line 97
`Message(role='user', content=sub_task['task'])`: a non-dict element raises
`TypeError`, a dict without the key raises `KeyError`, and a non-string
task value fails pydantic validation of `Message.content`. -/
def subTaskField (v : JValue) : Except String String :=
  match v with
  | JValue.obj fields =>
    match jlookup fields "task" with
    | none => Except.error "KeyError"
    | some (JValue.str s) => Except.ok s
    | some _ => Except.error "ValidationError"
  | _ => Except.error "TypeError"

/-- Line 95 `for sub_task in sub_tasks`: Python iteration over the parsed
JSON value. Arrays iterate their elements, dicts their keys (in insertion
order, duplicates collapsed), strings their one-character substrings;
every other value raises `TypeError`. -/
def iterElems (v : JValue) : Except String (List JValue) :=
  match v with
  | JValue.arr xs => Except.ok xs
  | JValue.obj fields => Except.ok (((fields.map Prod.fst).eraseDups).map JValue.str)
  | JValue.str s => Except.ok (s.toList.map (fun c => JValue.str c.toString))
  | _ => Except.error "TypeError"

/-- Line 108 `"\n".join(sub_task_results)` examines each element in order
and raises `TypeError` at the first non-string element. -/
def joinResultStrings : List Content → Except String (List String)
  | [] => Except.ok []
  | Content.str s :: rest => (joinResultStrings rest).map (fun ss => s :: ss)
  | Content.items _ :: _ => Except.error "TypeError"

/-- The full join of line 108. -/
def joinResults (rs : List Content) : Except String String :=
  (joinResultStrings rs).map (String.intercalate "\n")

/-- Line 97's one-message executor transcript entry (and the summarize
phase's synthetic message at line 109 shares the same constructor). -/
def userMsg (t : String) : Message := ⟨"user", Content.str t⟩

/-- Mutable state threaded through the sub-task loop of lines 94–104:
the `response` accumulator, the current value of the Python loop variable
`chunk` (which persists across loop iterations and is reused stale when an
agent run yields nothing), and the recorded trace pieces. -/
structure LoopState where
  response : List Message
  lastChunk : List Message
  emissions : List (List Message)
  subCalls : List (List Message)
  results : List Content
deriving Repr

/-- Lines 95–104: execute the parsed elements one after the other with the
sub (executor) agent. Returns the final state together with the exception,
if one was raised. -/
def execLoop (subAgent : AgentBehavior) : List JValue → LoopState → LoopState × Option String
  | [], st => (st, none)
  | e :: rest, st =>
    match subTaskField e with
    | Except.error err => (st, some err)
    | Except.ok t =>
      let subMessages := [userMsg t]
      let chunks := subAgent.run subMessages
      let emissions := st.emissions ++ chunks.map (fun c => st.response ++ c)
      let lastChunk := chunks.getLastD st.lastChunk
      let response := st.response ++ lastChunk
      let subCalls := st.subCalls ++ [subMessages]
      match response.getLast? with
      | none => (⟨response, lastChunk, emissions, subCalls, st.results⟩, some "IndexError")
      | some m =>
        execLoop subAgent rest ⟨response, lastChunk, emissions, subCalls, st.results ++ [m.content]⟩

/-- Lines 106–114 (the summarize phase), entered with the loop's final
state, plus the propagation of an exception raised inside the loop: join
the collected results, invoke the main (planner) agent on the single
synthetic summary message, stream its chunks on top of the accumulator,
and read `response[-1]` one final time (line 114's log). -/
def finishRun (mainAgent : AgentBehavior) (nmsgs : List Message)
    (p : LoopState × Option String) : RunTrace :=
  match p with
  | (st, some e) => ⟨st.emissions, [nmsgs], st.subCalls, st.results, RunOutcome.raised e⟩
  | (st, none) =>
    match joinResults st.results with
    | Except.error e => ⟨st.emissions, [nmsgs], st.subCalls, st.results, RunOutcome.raised e⟩
    | Except.ok joined =>
      let summaryMessages := [userMsg (summaryInstruction ++ joined)]
      let sumChunks := mainAgent.run summaryMessages
      let emissions := st.emissions ++ sumChunks.map (fun c => st.response ++ c)
      match (st.response ++ sumChunks.getLastD st.lastChunk).getLast? with
      | none =>
        ⟨emissions, [nmsgs, summaryMessages], st.subCalls, st.results,
          RunOutcome.raised "IndexError"⟩
      | some _ =>
        ⟨emissions, [nmsgs, summaryMessages], st.subCalls, st.results, RunOutcome.completed⟩

/-- `SplitTaskAgent._run` (lines 65–116), as the observable trace of one
generator run.  `jsonLoads` abstracts `json.loads` (`none` models
`json.JSONDecodeError`); a structured (list) content passed to `json.loads`
raises `TypeError`.  The plan phase streams with an empty accumulator, so
its emissions are the planner's chunks themselves; `chunk` being referenced
after an empty loop raises `NameError`; `response[-1]` on an empty
accumulator raises `IndexError` (first forced by the log call at line 81,
and again at line 114). -/
def splitTaskRun (jsonLoads : String → Option JValue)
    (mainAgent subAgent : AgentBehavior) (messages : List Message) : RunTrace :=
  match appendPlanInstruction messages with
  | Except.error e => ⟨[], [], [], [], RunOutcome.raised e⟩
  | Except.ok newMessages =>
    let planChunks := mainAgent.run newMessages
    match planChunks.getLast? with
    | none => ⟨planChunks, [newMessages], [], [], RunOutcome.raised "NameError"⟩
    | some lastChunk =>
      match lastChunk.getLast? with
      | none => ⟨planChunks, [newMessages], [], [], RunOutcome.raised "IndexError"⟩
      | some planMsg =>
        match planMsg.content with
        | Content.items _ => ⟨planChunks, [newMessages], [], [], RunOutcome.raised "TypeError"⟩
        | Content.str s =>
          match jsonLoads s with
          | none =>
            ⟨planChunks ++ [[⟨"assistant", Content.str s⟩]], [newMessages], [], [],
              RunOutcome.fallbackDone⟩
          | some v =>
            match iterElems v with
            | Except.error e => ⟨planChunks, [newMessages], [], [], RunOutcome.raised e⟩
            | Except.ok elems =>
              finishRun mainAgent newMessages
                (execLoop subAgent elems ⟨lastChunk, lastChunk, planChunks, [], []⟩)

/-- `SnapLE` coincides with "the first list is an initial segment", stated
through `take` so that it is decidable on concrete snapshots. -/
theorem snapLE_iff_take {a b : List Message} : SnapLE a b ↔ b.take a.length = a := by
  constructor
  · rintro ⟨t, rfl⟩
    exact List.take_left a t
  · intro h
    refine ⟨b.drop a.length, ?_⟩
    conv_lhs => rw [← List.take_append_drop a.length b]
    rw [h]

instance (a b : List Message) : Decidable (SnapLE a b) :=
  decidable_of_iff (b.take a.length = a) snapLE_iff_take.symm

theorem snapLE_refl (a : List Message) : SnapLE a a := ⟨[], (List.append_nil a).symm⟩

theorem snapLE_append (a t : List Message) : SnapLE a (a ++ t) := ⟨t, rfl⟩

theorem snapLE_trans {a b c : List Message} (h₁ : SnapLE a b) (h₂ : SnapLE b c) : SnapLE a c := by
  obtain ⟨t₁, rfl⟩ := h₁
  obtain ⟨t₂, rfl⟩ := h₂
  exact ⟨t₁ ++ t₂, List.append_assoc a t₁ t₂⟩

theorem snapLE_append_left {x y : List Message} (r : List Message) (h : SnapLE x y) :
    SnapLE (r ++ x) (r ++ y) := by
  obtain ⟨t, rfl⟩ := h
  exact ⟨t, (List.append_assoc r x t).symm⟩

/-- The Agent-interface contract from the spec: within one `run` call the
emitted snapshots are cumulative (each extends the previous by append). -/
def CumulativeAgent (a : AgentBehavior) : Prop :=
  ∀ ms, List.Chain' SnapLE (a.run ms)

/-- Removing the last element of an `R`-chain leaves an `R`-chain. -/
theorem chain_dropLast {α : Type} {R : α → α → Prop} {l : List α}
    (h : List.Chain' R l) : List.Chain' R l.dropLast := by
  rcases eq_or_ne l [] with rfl | hne
  · simp
  · rw [← List.dropLast_concat_getLast hne] at h
    exact (List.chain'_append.mp h).1

/-- Appending one agent call's cumulative chunks, each prefixed with the
current accumulator, keeps the emission sequence a `SnapLE`-chain. -/
theorem emissions_extend_chain (r : List Message) (em chunks : List (List Message))
    (h₁ : List.Chain' SnapLE em)
    (h₂ : ∀ l, em.getLast? = some l → SnapLE l r)
    (h₃ : List.Chain' SnapLE chunks) :
    List.Chain' SnapLE (em ++ chunks.map (fun c => r ++ c)) := by
  refine List.chain'_append.mpr ⟨h₁, ?_, ?_⟩
  · exact List.chain'_map_of_chain' _ (fun a b h => snapLE_append_left r h) h₃
  · intro x hx y hy
    rw [List.head?_map] at hy
    rcases hc : chunks.head? with _ | c
    · rw [hc] at hy
      exact absurd hy (by simp)
    · rw [hc] at hy
      simp only [Option.map_some'] at hy
      cases hy
      exact snapLE_trans (h₂ x hx) (snapLE_append r c)

/-- After appending one agent call's chunks, the last emission is an initial
segment of the new accumulator `r ++ chunks.getLastD stale`. -/
theorem emissions_extend_last (r stale : List Message) (em chunks : List (List Message))
    (h₂ : ∀ l, em.getLast? = some l → SnapLE l r) :
    ∀ l, (em ++ chunks.map (fun c => r ++ c)).getLast? = some l →
      SnapLE l (r ++ chunks.getLastD stale) := by
  intro l hl
  rw [List.getLast?_append, List.getLast?_map] at hl
  rcases hc : chunks.getLast? with _ | c
  · rw [hc] at hl
    have hl' : em.getLast? = some l := hl
    exact snapLE_trans (h₂ l hl') (snapLE_append r _)
  · rw [hc] at hl
    have hl' : some (r ++ c) = some l := hl
    cases hl'
    rw [List.getLastD_eq_getLast?, hc]
    exact snapLE_refl _

/-- Invariant carried through the sub-task loop: the emissions so far form
a `SnapLE`-chain and the most recent emission is an initial segment of the
`response` accumulator. -/
def GoodEmissions (st : LoopState) : Prop :=
  List.Chain' SnapLE st.emissions ∧
    ∀ l, st.emissions.getLast? = some l → SnapLE l st.response

/-- The sub-task loop preserves the emission invariant, for a cumulative
executor agent, whether or not it ends in an exception. -/
theorem execLoop_good (subAgent : AgentBehavior) (hSub : CumulativeAgent subAgent) :
    ∀ (elems : List JValue) (st : LoopState), GoodEmissions st →
      GoodEmissions (execLoop subAgent elems st).1 := by
  intro elems
  induction elems with
  | nil => intro st h; exact h
  | cons e rest ih =>
    intro st h
    rw [execLoop]
    rcases hf : subTaskField e with err | t
    · exact h
    · have hchain := emissions_extend_chain st.response st.emissions
        (subAgent.run [userMsg t]) h.1 h.2 (hSub [userMsg t])
      have hlast := emissions_extend_last st.response st.lastChunk st.emissions
        (subAgent.run [userMsg t]) h.2
      rcases hr : (st.response ++ (subAgent.run [userMsg t]).getLastD st.lastChunk).getLast? with
          _ | m
      · simp only [hr]
        exact ⟨hchain, hlast⟩
      · simp only [hr]
        exact ih _ ⟨hchain, hlast⟩

/-- The summarize phase and the exception pathways preserve the
emission-chain property of the loop's final state. -/
theorem finishRun_chain (mainAgent : AgentBehavior) (hM : CumulativeAgent mainAgent)
    (nmsgs : List Message) (st : LoopState) (err : Option String)
    (h : GoodEmissions st) :
    List.Chain' SnapLE (finishRun mainAgent nmsgs (st, err)).emissions := by
  cases err with
  | some e => exact h.1
  | none =>
    simp only [finishRun]
    split
    · exact h.1
    next joined hJ =>
      split
      · exact emissions_extend_chain st.response st.emissions _ h.1 h.2
          (hM [userMsg (summaryInstruction ++ joined)])
      · exact emissions_extend_chain st.response st.emissions _ h.1 h.2
          (hM [userMsg (summaryInstruction ++ joined)])

/-- The executor-call record is unchanged by the summarize phase. -/
theorem finishRun_subCalls (mainAgent : AgentBehavior) (nmsgs : List Message)
    (p : LoopState × Option String) :
    (finishRun mainAgent nmsgs p).subCalls = p.1.subCalls := by
  rcases p with ⟨st, e⟩
  cases e with
  | some err => rfl
  | none =>
    simp only [finishRun]
    repeat' split
    all_goals rfl

/-- The `sub_task_results` record is unchanged by the summarize phase. -/
theorem finishRun_results (mainAgent : AgentBehavior) (nmsgs : List Message)
    (p : LoopState × Option String) :
    (finishRun mainAgent nmsgs p).subTaskResults = p.1.results := by
  rcases p with ⟨st, e⟩
  cases e with
  | some err => rfl
  | none =>
    simp only [finishRun]
    repeat' split
    all_goals rfl

/-- Once the parse succeeded, no continuation of the run reports the
fallback outcome. -/
theorem finishRun_outcome_ne_fallback (mainAgent : AgentBehavior) (nmsgs : List Message)
    (p : LoopState × Option String) :
    (finishRun mainAgent nmsgs p).outcome ≠ RunOutcome.fallbackDone := by
  rcases p with ⟨st, e⟩
  cases e with
  | some err => simp [finishRun]
  | none =>
    simp only [finishRun]
    repeat' split
    all_goals simp

/-- Every continuation of the run keeps the plan-phase transcript as the
first recorded main-agent call. -/
theorem finishRun_mainCalls_head (mainAgent : AgentBehavior) (nmsgs : List Message)
    (p : LoopState × Option String) :
    (finishRun mainAgent nmsgs p).mainCalls.head? = some nmsgs := by
  rcases p with ⟨st, e⟩
  cases e with
  | some err => rfl
  | none =>
    simp only [finishRun]
    repeat' split
    all_goals rfl

/-- When the joined results are the string `j`, the summarize phase records
exactly the plan call and the one-message synthetic summary call. -/
theorem finishRun_mainCalls_join (mainAgent : AgentBehavior) (nmsgs : List Message)
    (st : LoopState) (j : String) (h : joinResults st.results = Except.ok j) :
    (finishRun mainAgent nmsgs (st, none)).mainCalls =
      [nmsgs, [userMsg (summaryInstruction ++ j)]] := by
  simp only [finishRun, h]
  split
  · rfl
  · rfl

/-- Master emission lemma: with contract-conforming (cumulative) agents,
the emitted snapshots of one run form a `SnapLE`-chain, except that on the
fallback path only the emissions before the terminal fallback message are
guaranteed to chain. -/
theorem splitTaskRun_emissions_spec (jsonLoads : String → Option JValue)
    (mainAgent subAgent : AgentBehavior) (messages : List Message)
    (hM : CumulativeAgent mainAgent) (hS : CumulativeAgent subAgent) :
    List.Chain' SnapLE (splitTaskRun jsonLoads mainAgent subAgent messages).emissions ∨
      ((splitTaskRun jsonLoads mainAgent subAgent messages).outcome = RunOutcome.fallbackDone ∧
        List.Chain' SnapLE
          ((splitTaskRun jsonLoads mainAgent subAgent messages).emissions.dropLast)) := by
  simp only [splitTaskRun]
  split
  · left; exact List.chain'_nil
  next nm heq =>
    split
    next h1 => left; exact hM nm
    next lastChunk h1 =>
      split
      next h2 => left; exact hM nm
      next planMsg h2 =>
        split
        next => left; exact hM nm
        next s h3 =>
          split
          next h4 =>
            right
            refine ⟨rfl, ?_⟩
            simp only [List.dropLast_concat]
            exact hM nm
          next v h4 =>
            split
            next h5 => left; exact hM nm
            next elems h5 =>
              have hst0 : GoodEmissions ⟨lastChunk, lastChunk, mainAgent.run nm, [], []⟩ := by
                refine ⟨hM nm, ?_⟩
                intro l hl
                rw [h1] at hl
                cases hl
                exact snapLE_refl _
              have hgood := execLoop_good subAgent hS elems _ hst0
              left
              rcases hE : execLoop subAgent elems ⟨lastChunk, lastChunk, mainAgent.run nm, [], []⟩
                with ⟨st, e⟩
              rw [hE] at hgood
              exact finishRun_chain mainAgent hM nm st e hgood

/-- A plan-phase output that is not valid JSON (the spec's own P2 example). -/
def demoPlanText : String := "抱歉，我不太理解您的问题"

/-- The spec's scenario plan output: a JSON array of two task objects. -/
def demoPlanJson : String :=
  "[\x7b\"task\": \"查询AAPL股票价格\"\x7d, \x7b\"task\": \"查询AAPL股票财务数据\"\x7d]"

/-- The parsed value of `demoPlanJson`. -/
def demoPlanTasks : List JValue :=
  [JValue.obj [("task", JValue.str "查询AAPL股票价格")],
   JValue.obj [("task", JValue.str "查询AAPL股票财务数据")]]

/-- Parse oracle agreeing with `json.loads` on the concrete strings used in
the witnesses below: `"42"` is the JSON number 42, `demoPlanJson` is the
two-task array, everything else used here is not valid JSON. -/
def demoLoads : String → Option JValue := fun s =>
  if s = "42" then some (JValue.num 42)
  else if s = demoPlanJson then some (JValue.arr demoPlanTasks)
  else none

/-- A planner behavior that answers with the non-JSON direct response. -/
def demoFallbackMain : AgentBehavior := ⟨fun _ => [[⟨"assistant", Content.str demoPlanText⟩]]⟩

/-- An executor behavior that emits nothing. -/
def demoSilentSub : AgentBehavior := ⟨fun _ => []⟩

/-- A caller transcript in the shape the WebUI produces (structured content). -/
def demoUserMessages : List Message := [⟨"user", Content.items [⟨"分析AAPL"⟩]⟩]

/-- C1: when the plan phase's last message content is a string that is not
valid JSON, the run emits exactly one terminal snapshot after the plan
emissions — a single `assistant` message carrying the plan output verbatim —
records no executor (sub-agent) invocation at all, and terminates on the
fallback path. -/
theorem claim_C1_invalid_json_fallback
    (jsonLoads : String → Option JValue) (mainAgent subAgent : AgentBehavior)
    (messages nmsgs lc : List Message) (pm : Message) (s : String)
    (hPlan : appendPlanInstruction messages = Except.ok nmsgs)
    (hLC : (mainAgent.run nmsgs).getLast? = some lc)
    (hPM : lc.getLast? = some pm)
    (hStr : pm.content = Content.str s)
    (hBad : jsonLoads s = none) :
    splitTaskRun jsonLoads mainAgent subAgent messages =
      ⟨mainAgent.run nmsgs ++ [[⟨"assistant", Content.str s⟩]], [nmsgs], [], [],
        RunOutcome.fallbackDone⟩ := by
  simp only [splitTaskRun, hPlan, hLC, hPM, hStr, hBad]

/-- Witness for C1 at the spec's own P2 example text. -/
theorem claim_C1_witness :
    splitTaskRun demoLoads demoFallbackMain demoSilentSub demoUserMessages =
      ⟨[[⟨"assistant", Content.str demoPlanText⟩], [⟨"assistant", Content.str demoPlanText⟩]],
        [[⟨"user", Content.items [⟨"分析AAPL"⟩, planInstructionItem]⟩]], [], [],
        RunOutcome.fallbackDone⟩ := by
  exact claim_C1_invalid_json_fallback demoLoads demoFallbackMain demoSilentSub
    demoUserMessages [⟨"user", Content.items [⟨"分析AAPL"⟩, planInstructionItem]⟩]
    [⟨"assistant", Content.str demoPlanText⟩] ⟨"assistant", Content.str demoPlanText⟩
    demoPlanText (by rfl) (by rfl) (by rfl) (by rfl) (by rfl)

/-- The planner's final plan-phase snapshot in the C3 counterexample run:
a tool-call trace message followed by the textual answer, which is the
normal shape of a qwen-agent cumulative emission. -/
def cexMain : AgentBehavior :=
  ⟨fun _ => [[⟨"assistant", Content.str "正在调用工具查询AAPL"⟩,
    ⟨"assistant", Content.str demoPlanText⟩]]⟩

/-- C3 is FALSE as stated: with contract-conforming (cumulative) agents, a
run in which the plan phase's final snapshot holds two messages and whose
content is not valid JSON ends with the fallback emission — a single
message — which retracts the previously emitted two-message snapshot, so
consecutive snapshots are not append-prefix ordered. -/
theorem claim_C3_counterexample :
    CumulativeAgent cexMain ∧ CumulativeAgent demoSilentSub ∧
      ¬ List.Chain' SnapLE
        (splitTaskRun demoLoads cexMain demoSilentSub demoUserMessages).emissions := by
  refine ⟨fun _ => List.chain'_singleton _, fun _ => List.chain'_nil, ?_⟩
  intro h
  have he : (splitTaskRun demoLoads cexMain demoSilentSub demoUserMessages).emissions =
      [[⟨"assistant", Content.str "正在调用工具查询AAPL"⟩,
        ⟨"assistant", Content.str demoPlanText⟩],
       [⟨"assistant", Content.str demoPlanText⟩]] := by rfl
  rw [he] at h
  obtain ⟨hR, -⟩ := List.chain'_cons.mp h
  obtain ⟨t, ht⟩ := hR
  have hlen := congrArg List.length ht
  simp only [List.length_append, List.length_cons, List.length_nil] at hlen
  omega

/-- C3 (amended): for cumulative agents, all consecutive emitted snapshots
extend each other by append, except possibly the final pair on the
direct-response fallback path; on every non-fallback path the whole
emission sequence is append-prefix ordered. -/
theorem claim_C3_cumulative_emissions
    (jsonLoads : String → Option JValue) (mainAgent subAgent : AgentBehavior)
    (messages : List Message)
    (hM : CumulativeAgent mainAgent) (hS : CumulativeAgent subAgent) :
    List.Chain' SnapLE
        ((splitTaskRun jsonLoads mainAgent subAgent messages).emissions.dropLast) ∧
      ((splitTaskRun jsonLoads mainAgent subAgent messages).outcome ≠ RunOutcome.fallbackDone →
        List.Chain' SnapLE (splitTaskRun jsonLoads mainAgent subAgent messages).emissions) := by
  rcases splitTaskRun_emissions_spec jsonLoads mainAgent subAgent messages hM hS with h | ⟨ho, h⟩
  · exact ⟨chain_dropLast h, fun _ => h⟩
  · exact ⟨h, fun hn => absurd ho hn⟩

/-- Witness for the amended C3 at a concrete cumulative-agent run. -/
theorem claim_C3_witness :
    List.Chain' SnapLE
        ((splitTaskRun demoLoads demoFallbackMain demoSilentSub
          demoUserMessages).emissions.dropLast) ∧
      ((splitTaskRun demoLoads demoFallbackMain demoSilentSub demoUserMessages).outcome ≠
          RunOutcome.fallbackDone →
        List.Chain' SnapLE
          (splitTaskRun demoLoads demoFallbackMain demoSilentSub demoUserMessages).emissions) :=
  claim_C3_cumulative_emissions demoLoads demoFallbackMain demoSilentSub demoUserMessages
    (fun _ => List.chain'_singleton _) (fun _ => List.chain'_nil)

/-- A planner behavior whose plan output is `"42"`: syntactically valid
JSON, but not an array of objects carrying a `task` string. -/
def demoJson42Main : AgentBehavior := ⟨fun _ => [[⟨"assistant", Content.str "42"⟩]]⟩

/-- C2 is FALSE as stated: a plan output that is valid JSON of the wrong
shape (the JSON number `42`) does not route to the direct-response fallback
path — only `json.JSONDecodeError` is caught, so iterating the parsed
number raises an uncaught `TypeError` that escapes the run. -/
theorem claim_C2_counterexample :
    (splitTaskRun demoLoads demoJson42Main demoSilentSub demoUserMessages).outcome =
        RunOutcome.raised "TypeError" ∧
      (splitTaskRun demoLoads demoJson42Main demoSilentSub demoUserMessages).outcome ≠
        RunOutcome.fallbackDone := by
  refine ⟨by rfl, by decide⟩

/-- C2 (amended): the direct-response fallback is taken only when the plan
content fails to parse as JSON. Whenever the plan phase's last message
content is a string that parses as valid JSON — of whatever shape — the run
never takes the fallback path: malformed shapes either raise an uncaught
exception (`TypeError`/`KeyError`/validation error) or, for empty
arrays/objects/strings, proceed to the summarize phase with no sub-tasks. -/
theorem claim_C2_valid_json_no_fallback
    (jsonLoads : String → Option JValue) (mainAgent subAgent : AgentBehavior)
    (messages nmsgs lc : List Message) (pm : Message) (s : String) (v : JValue)
    (hPlan : appendPlanInstruction messages = Except.ok nmsgs)
    (hLC : (mainAgent.run nmsgs).getLast? = some lc)
    (hPM : lc.getLast? = some pm)
    (hStr : pm.content = Content.str s)
    (hParse : jsonLoads s = some v) :
    (splitTaskRun jsonLoads mainAgent subAgent messages).outcome ≠
      RunOutcome.fallbackDone := by
  simp only [splitTaskRun, hPlan, hLC, hPM, hStr, hParse]
  split
  · simp
  · exact finishRun_outcome_ne_fallback mainAgent nmsgs _

/-- Witness for the amended C2 at the valid-JSON-number plan output. -/
theorem claim_C2_witness :
    (splitTaskRun demoLoads demoJson42Main demoSilentSub demoUserMessages).outcome ≠
      RunOutcome.fallbackDone :=
  claim_C2_valid_json_no_fallback demoLoads demoJson42Main demoSilentSub demoUserMessages
    [⟨"user", Content.items [⟨"分析AAPL"⟩, planInstructionItem]⟩]
    [⟨"assistant", Content.str "42"⟩] ⟨"assistant", Content.str "42"⟩ "42" (JValue.num 42)
    (by rfl) (by rfl) (by rfl) (by rfl) (by rfl)

/-- C9 is FALSE as stated: on a transcript whose last (user) message content
is a plain string, the orchestration core itself raises `AttributeError` at
`new_messages[-1]['content'].append(...)` before the planner agent is ever
invoked — the trace records no main-agent call at all. -/
theorem claim_C9_counterexample :
    splitTaskRun demoLoads demoFallbackMain demoSilentSub
        [⟨"user", Content.str "分析AAPL"⟩] =
      ⟨[], [], [], [], RunOutcome.raised "AttributeError"⟩ := by
  rfl

/-- C9 (amended): the core does impose one structural constraint of its
own — the last message's content must be a structured item list so the
plan instruction can be appended. Under that single condition it performs
no further validation and delegates: the planner agent's first invocation
receives exactly the caller's transcript (a private copy) with the plan
instruction item appended to the last message. -/
theorem claim_C9_structured_passthrough
    (jsonLoads : String → Option JValue) (mainAgent subAgent : AgentBehavior)
    (messages : List Message) (m : Message) (xs : List ContentItem)
    (hLast : messages.getLast? = some m) (hItems : m.content = Content.items xs) :
    (splitTaskRun jsonLoads mainAgent subAgent messages).mainCalls.head? =
      some (messages.dropLast ++ [⟨m.role, Content.items (xs ++ [planInstructionItem])⟩]) := by
  have hPlan : appendPlanInstruction messages =
      Except.ok (messages.dropLast ++
        [⟨m.role, Content.items (xs ++ [planInstructionItem])⟩]) := by
    simp only [appendPlanInstruction, hLast, hItems]
  simp only [splitTaskRun, hPlan]
  repeat' split
  all_goals first
  | rfl
  | exact finishRun_mainCalls_head _ _ _

/-- Witness for the amended C9 at a structured-content transcript. -/
theorem claim_C9_witness :
    (splitTaskRun demoLoads demoFallbackMain demoSilentSub demoUserMessages).mainCalls.head? =
      some [⟨"user", Content.items [⟨"分析AAPL"⟩, planInstructionItem]⟩] :=
  claim_C9_structured_passthrough demoLoads demoFallbackMain demoSilentSub demoUserMessages
    ⟨"user", Content.items [⟨"分析AAPL"⟩]⟩ [⟨"分析AAPL"⟩] (by rfl) (by rfl)

/-- The message read by `response[-1]` right after one agent call: the last
message of the call's last chunk (when both exist). -/
def lastMessageOf (chunks : List (List Message)) : Option Message :=
  match chunks.getLast? with
  | none => none
  | some c => c.getLast?

/-- The `sub_task_results` entry produced for one task string by an executor
agent that emits at least one nonempty final chunk. -/
def subResult (subAgent : AgentBehavior) (t : String) : Content :=
  ((lastMessageOf (subAgent.run [userMsg t])).getD default).content

/-- The task strings of the leading elements that survive line 96's
`sub_task['task']` access, in order; extraction stops at the first element
that raises. -/
def okTasks : List JValue → List String
  | [] => []
  | e :: rest =>
    match subTaskField e with
    | Except.ok t => t :: okTasks rest
    | Except.error _ => []

/-- Characterization of the sub-task loop on a fully well-formed task list
whose executor calls each produce a final message: no exception, one
recorded call per task in list order, and one recorded result per task in
the same order. -/
theorem execLoop_spec (subAgent : AgentBehavior) :
    ∀ (vs : List JValue) (ts : List String),
      List.Forall₂ (fun v t => subTaskField v = Except.ok t) vs ts →
      (∀ t ∈ ts, lastMessageOf (subAgent.run [userMsg t]) ≠ none) →
      ∀ st : LoopState, st.response ≠ [] →
        ∃ st', execLoop subAgent vs st = (st', none) ∧
          st'.subCalls = st.subCalls ++ ts.map (fun t => [userMsg t]) ∧
          st'.results = st.results ++ ts.map (fun t => subResult subAgent t) ∧
          st'.response ≠ [] := by
  intro vs ts hf
  induction hf with
  | nil =>
    intro _ st hst
    exact ⟨st, rfl, by simp, by simp, hst⟩
  | cons hvt htail ih =>
    rename_i v t vs' ts'
    intro hne st hst
    have hne_head : lastMessageOf (subAgent.run [userMsg t]) ≠ none := hne t (by simp)
    rcases hc : (subAgent.run [userMsg t]).getLast? with _ | c
    · refine absurd ?_ hne_head
      simp [lastMessageOf, hc]
    rcases hm : c.getLast? with _ | m
    · refine absurd ?_ hne_head
      simp [lastMessageOf, hc, hm]
    have hgetD : (subAgent.run [userMsg t]).getLastD st.lastChunk = c := by
      rw [List.getLastD_eq_getLast?, hc]
      rfl
    have hresp2 : (st.response ++ c).getLast? = some m := by
      rw [List.getLast?_append, hm]
      rfl
    have hsubres : subResult subAgent t = m.content := by
      simp [subResult, lastMessageOf, hc, hm]
    have hne_tail : ∀ x ∈ ts', lastMessageOf (subAgent.run [userMsg x]) ≠ none :=
      fun x hx => hne x (by simp [hx])
    obtain ⟨st', heq, hsub, hres, hrespne⟩ :=
      ih hne_tail
        ⟨st.response ++ c, c,
          st.emissions ++ (subAgent.run [userMsg t]).map (fun ch => st.response ++ ch),
          st.subCalls ++ [[userMsg t]], st.results ++ [m.content]⟩
        (fun h => hst (List.append_eq_nil.mp h).1)
    refine ⟨st', ?_, ?_, ?_, hrespne⟩
    · simp only [execLoop, hvt, hgetD, hresp2]
      exact heq
    · rw [hsub]
      simp
    · rw [hres]
      simp [hsubres]

/-- On any element list, the calls recorded by the sub-task loop are exactly
the one-user-message transcripts of the leading well-formed task strings,
provided the accumulator is nonempty (which every reachable run guarantees,
the plan phase having contributed a message). -/
theorem execLoop_subCalls (subAgent : AgentBehavior) :
    ∀ (vs : List JValue) (st : LoopState), st.response ≠ [] →
      (execLoop subAgent vs st).1.subCalls =
        st.subCalls ++ (okTasks vs).map (fun t => [userMsg t]) := by
  intro vs
  induction vs with
  | nil =>
    intro st _
    simp [execLoop, okTasks]
  | cons e rest ih =>
    intro st hst
    rcases hf : subTaskField e with err | t
    · simp [execLoop, okTasks, hf]
    · simp only [execLoop, hf]
      rcases hr : (st.response ++ (subAgent.run [userMsg t]).getLastD st.lastChunk).getLast?
          with _ | m
      · rw [List.getLast?_eq_none_iff] at hr
        exact absurd (List.append_eq_nil.mp hr).1 hst
      · rw [ih _ (fun h => hst (List.append_eq_nil.mp h).1)]
        simp [okTasks, hf]

/-- A planner behavior that produces the two-task JSON plan. -/
def demoPlanMain : AgentBehavior := ⟨fun _ => [[⟨"assistant", Content.str demoPlanJson⟩]]⟩

/-- An executor behavior that answers every sub-task with one final text. -/
def demoEchoSub : AgentBehavior := ⟨fun _ => [[⟨"assistant", Content.str "查询完成"⟩]]⟩

/-- C4: for a successfully parsed sub-task list of well-formed task
objects whose executor runs each produce a final message, the executor is
invoked once per sub-task in exactly list order (the recorded invocation
sequence equals the task list mapped to one-message transcripts, and the
sequential recursion runs each call to completion before the next starts),
and `sub_task_results` holds each task's result in that same order. -/
theorem claim_C4_sequential_subtasks
    (jsonLoads : String → Option JValue) (mainAgent subAgent : AgentBehavior)
    (messages nmsgs lc : List Message) (pm : Message) (s : String)
    (vs : List JValue) (ts : List String)
    (hPlan : appendPlanInstruction messages = Except.ok nmsgs)
    (hLC : (mainAgent.run nmsgs).getLast? = some lc)
    (hPM : lc.getLast? = some pm)
    (hStr : pm.content = Content.str s)
    (hParse : jsonLoads s = some (JValue.arr vs))
    (hTasks : List.Forall₂ (fun v t => subTaskField v = Except.ok t) vs ts)
    (hProd : ∀ t ∈ ts, lastMessageOf (subAgent.run [userMsg t]) ≠ none) :
    (splitTaskRun jsonLoads mainAgent subAgent messages).subCalls =
        ts.map (fun t => [userMsg t]) ∧
      (splitTaskRun jsonLoads mainAgent subAgent messages).subTaskResults =
        ts.map (fun t => subResult subAgent t) := by
  obtain ⟨st', heq, hsub, hres, -⟩ :=
    execLoop_spec subAgent vs ts hTasks hProd ⟨lc, lc, mainAgent.run nmsgs, [], []⟩
      (by intro h; have h' : lc = [] := h; rw [h'] at hPM; simp at hPM)
  simp only [splitTaskRun, hPlan, hLC, hPM, hStr, hParse, iterElems, heq]
  refine ⟨?_, ?_⟩
  · rw [finishRun_subCalls]
    simpa using hsub
  · rw [finishRun_results]
    simpa using hres

/-- Witness for C4 at the spec's two-task scenario. -/
theorem claim_C4_witness :
    (splitTaskRun demoLoads demoPlanMain demoEchoSub demoUserMessages).subCalls =
        ["查询AAPL股票价格", "查询AAPL股票财务数据"].map (fun t => [userMsg t]) ∧
      (splitTaskRun demoLoads demoPlanMain demoEchoSub demoUserMessages).subTaskResults =
        ["查询AAPL股票价格", "查询AAPL股票财务数据"].map (fun t => subResult demoEchoSub t) :=
  claim_C4_sequential_subtasks demoLoads demoPlanMain demoEchoSub demoUserMessages
    [⟨"user", Content.items [⟨"分析AAPL"⟩, planInstructionItem]⟩]
    [⟨"assistant", Content.str demoPlanJson⟩] ⟨"assistant", Content.str demoPlanJson⟩
    demoPlanJson demoPlanTasks ["查询AAPL股票价格", "查询AAPL股票财务数据"]
    (by rfl) (by rfl) (by rfl) (by rfl) (by rfl)
    (by refine List.Forall₂.cons ?_ (List.Forall₂.cons ?_ List.Forall₂.nil) <;> rfl)
    (by intro t _; simp [demoEchoSub, lastMessageOf])

/-- Auxiliary: joining all-string per-task results succeeds and returns
exactly those strings. -/
theorem joinResultStrings_map (subAgent : AgentBehavior) (ts rss : List String)
    (hf : List.Forall₂ (fun t r => subResult subAgent t = Content.str r) ts rss) :
    joinResultStrings (ts.map (fun t => subResult subAgent t)) = Except.ok rss := by
  induction hf with
  | nil => rfl
  | cons h htail ih =>
    rename_i t r ts' rss'
    rw [List.map_cons, h]
    simp only [joinResultStrings, ih]
    rfl

/-- C5: a run that reaches the summarize phase makes exactly two planner
(main-agent) invocations: the plan call, and a final call whose transcript
is one synthetic user message carrying the fixed summarization instruction
followed by all sub-task results joined by newlines — neither the original
conversation nor the plan output appears in that final transcript. -/
theorem claim_C5_summary_call
    (jsonLoads : String → Option JValue) (mainAgent subAgent : AgentBehavior)
    (messages nmsgs lc : List Message) (pm : Message) (s : String)
    (vs : List JValue) (ts rss : List String)
    (hPlan : appendPlanInstruction messages = Except.ok nmsgs)
    (hLC : (mainAgent.run nmsgs).getLast? = some lc)
    (hPM : lc.getLast? = some pm)
    (hStr : pm.content = Content.str s)
    (hParse : jsonLoads s = some (JValue.arr vs))
    (hTasks : List.Forall₂ (fun v t => subTaskField v = Except.ok t) vs ts)
    (hProd : ∀ t ∈ ts, lastMessageOf (subAgent.run [userMsg t]) ≠ none)
    (hRes : List.Forall₂ (fun t r => subResult subAgent t = Content.str r) ts rss) :
    (splitTaskRun jsonLoads mainAgent subAgent messages).mainCalls =
      [nmsgs, [userMsg (summaryInstruction ++ String.intercalate "\n" rss)]] := by
  obtain ⟨st', heq, hsub, hres, -⟩ :=
    execLoop_spec subAgent vs ts hTasks hProd ⟨lc, lc, mainAgent.run nmsgs, [], []⟩
      (by intro h; have h' : lc = [] := h; rw [h'] at hPM; simp at hPM)
  have hjoin : joinResults st'.results = Except.ok (String.intercalate "\n" rss) := by
    rw [hres, List.nil_append, joinResults, joinResultStrings_map subAgent ts rss hRes]
    rfl
  simp only [splitTaskRun, hPlan, hLC, hPM, hStr, hParse, iterElems, heq]
  exact finishRun_mainCalls_join mainAgent nmsgs st' (String.intercalate "\n" rss) hjoin

/-- Witness for C5 at the spec's two-task scenario. -/
theorem claim_C5_witness :
    (splitTaskRun demoLoads demoPlanMain demoEchoSub demoUserMessages).mainCalls =
      [[⟨"user", Content.items [⟨"分析AAPL"⟩, planInstructionItem]⟩],
        [userMsg (summaryInstruction ++ String.intercalate "\n" ["查询完成", "查询完成"])]] :=
  claim_C5_summary_call demoLoads demoPlanMain demoEchoSub demoUserMessages
    [⟨"user", Content.items [⟨"分析AAPL"⟩, planInstructionItem]⟩]
    [⟨"assistant", Content.str demoPlanJson⟩] ⟨"assistant", Content.str demoPlanJson⟩
    demoPlanJson demoPlanTasks ["查询AAPL股票价格", "查询AAPL股票财务数据"]
    ["查询完成", "查询完成"]
    (by rfl) (by rfl) (by rfl) (by rfl) (by rfl)
    (by refine List.Forall₂.cons ?_ (List.Forall₂.cons ?_ List.Forall₂.nil) <;> rfl)
    (by intro t _; simp [demoEchoSub, lastMessageOf])
    (by refine List.Forall₂.cons ?_ (List.Forall₂.cons ?_ List.Forall₂.nil) <;> rfl)

/-- C7: on every run that reaches the execute phase, the transcripts handed
to the executor agent are exactly `[Message(role='user', content=task)]`
for the leading well-formed task strings, in order — one freshly built
one-user-message transcript per executed sub-task, containing nothing from
the original conversation, the plan output, or other sub-tasks. -/
theorem claim_C7_fresh_subtask_transcripts
    (jsonLoads : String → Option JValue) (mainAgent subAgent : AgentBehavior)
    (messages nmsgs lc : List Message) (pm : Message) (s : String)
    (v : JValue) (elems : List JValue)
    (hPlan : appendPlanInstruction messages = Except.ok nmsgs)
    (hLC : (mainAgent.run nmsgs).getLast? = some lc)
    (hPM : lc.getLast? = some pm)
    (hStr : pm.content = Content.str s)
    (hParse : jsonLoads s = some v)
    (hIter : iterElems v = Except.ok elems) :
    (splitTaskRun jsonLoads mainAgent subAgent messages).subCalls =
      (okTasks elems).map (fun t => [userMsg t]) := by
  have hcalls := execLoop_subCalls subAgent elems ⟨lc, lc, mainAgent.run nmsgs, [], []⟩
    (by intro h; have h' : lc = [] := h; rw [h'] at hPM; simp at hPM)
  simp only [splitTaskRun, hPlan, hLC, hPM, hStr, hParse, hIter]
  rcases hE : execLoop subAgent elems ⟨lc, lc, mainAgent.run nmsgs, [], []⟩ with ⟨st', err⟩
  rw [hE] at hcalls
  rw [finishRun_subCalls]
  simpa using hcalls

/-- Witness for C7 at the spec's two-task scenario. -/
theorem claim_C7_witness :
    (splitTaskRun demoLoads demoPlanMain demoEchoSub demoUserMessages).subCalls =
      (okTasks demoPlanTasks).map (fun t => [userMsg t]) :=
  claim_C7_fresh_subtask_transcripts demoLoads demoPlanMain demoEchoSub demoUserMessages
    [⟨"user", Content.items [⟨"分析AAPL"⟩, planInstructionItem]⟩]
    [⟨"assistant", Content.str demoPlanJson⟩] ⟨"assistant", Content.str demoPlanJson⟩
    demoPlanJson (JValue.arr demoPlanTasks) demoPlanTasks
    (by rfl) (by rfl) (by rfl) (by rfl) (by rfl) (by rfl)

/-- A fragment of the Python object heap: message objects addressed by
index. A transcript held by the caller is a list of addresses into this
heap, matching Python's reference semantics for `list[Message]`. -/
structure PyHeap where
  cells : List Message
deriving Repr

/-- The message values a transcript's addresses currently refer to. -/
def derefAll (h : PyHeap) (addrs : List Nat) : List (Option Message) :=
  addrs.map (fun a => h.cells.get? a)

/-- Line 73 `copy.deepcopy(messages)`: allocate fresh cells holding copies
of the referenced messages and return the new addresses (all of them past
the end of the existing heap). -/
def deepcopyTranscript (h : PyHeap) (addrs : List Nat) : PyHeap × List Nat :=
  (⟨h.cells ++ addrs.map (fun a => (h.cells.get? a).getD default)⟩,
   List.range' h.cells.length addrs.length)

/-- Lines 74–75 `new_messages[-1]['content'].append(...)`: mutate, in place,
the message object addressed by the transcript's last entry (a no-op on the
heap when the transcript is empty or the content is a plain string — those
cases raise before any write happens). -/
def appendInstructionAt (h : PyHeap) (addrs : List Nat) : PyHeap :=
  match addrs.getLast? with
  | none => h
  | some a =>
    match h.cells.get? a with
    | none => h
    | some m =>
      match m.content with
      | Content.str _ => h
      | Content.items xs =>
        ⟨h.cells.set a ⟨m.role, Content.items (xs ++ [planInstructionItem])⟩⟩

/-- Lines 73–75 combined: the only statements of `_run` that write to any
message object reachable from the caller's transcript. -/
def planPhasePrep (h : PyHeap) (callerAddrs : List Nat) : PyHeap × List Nat :=
  let hc := deepcopyTranscript h callerAddrs
  (appendInstructionAt hc.1 hc.2, hc.2)

/-- The in-place append touches only an address of the given transcript. -/
theorem appendInstructionAt_get? (h : PyHeap) (addrs : List Nat) (b : Nat)
    (hb : b ∉ addrs) : (appendInstructionAt h addrs).cells.get? b = h.cells.get? b := by
  simp only [appendInstructionAt]
  split
  · rfl
  next a ha =>
    have hab : a ≠ b := by
      intro hEq
      exact hb (hEq ▸ List.mem_of_getLast?_eq_some ha)
    split
    · rfl
    next m hm =>
      split
      · rfl
      · simp [List.get?_eq_getElem?, List.getElem?_set_ne hab]

/-- C6: the run never mutates the caller's transcript. The only writes
`_run` performs on message objects (lines 73–75) go through
`planPhasePrep`: the plan instruction is appended to the last message of a
freshly allocated deep copy, so every address of the caller's original
transcript still dereferences to exactly the message it held before. -/
theorem claim_C6_no_caller_mutation (h : PyHeap) (callerAddrs : List Nat)
    (hvalid : ∀ a ∈ callerAddrs, a < h.cells.length) :
    derefAll (planPhasePrep h callerAddrs).1 callerAddrs = derefAll h callerAddrs := by
  simp only [derefAll, planPhasePrep]
  refine List.map_congr_left ?_
  intro a ha
  have halt : a < h.cells.length := hvalid a ha
  have hnotin : a ∉ (deepcopyTranscript h callerAddrs).2 := by
    simp only [deepcopyTranscript, List.mem_range'_1]
    omega
  rw [appendInstructionAt_get? _ _ a hnotin]
  simp only [deepcopyTranscript]
  rw [List.get?_eq_getElem?, List.get?_eq_getElem?, List.getElem?_append_left halt]

/-- Witness for C6 on a one-message caller transcript. -/
theorem claim_C6_witness :
    derefAll (planPhasePrep ⟨[⟨"user", Content.items [⟨"分析AAPL"⟩]⟩]⟩ [0]).1 [0] =
      derefAll ⟨[⟨"user", Content.items [⟨"分析AAPL"⟩]⟩]⟩ [0] :=
  claim_C6_no_caller_mutation ⟨[⟨"user", Content.items [⟨"分析AAPL"⟩]⟩]⟩ [0] (by decide)

/-- A JSON-serializable Python value as produced by the data tools:
strings, integers, exact numeric values (standing in for floats whose
rounding no claim concerns), lists and string-keyed dicts. -/
inductive ToolVal where
  | str (s : String)
  | int (i : Int)
  | rat (q : Rat)
  | list (xs : List ToolVal)
  | dict (fields : List (String × ToolVal))

/-- The dict payload a tool's `execute` returns. -/
def ToolDict := List (String × ToolVal)

/-- Python dict key lookup on a tool result. -/
def lookupKey (d : ToolDict) (k : String) : Option ToolVal :=
  (List.find? (fun p => p.1 == k) d).map (fun p => p.2)

/-- `MCPBaseTool._error_response` (base_tool.py lines 34–36). -/
def errorResponse (msg : String) : ToolDict := [("error", ToolVal.str msg)]

mutual

/-- `MCPBaseTool._json_serializable` (base_tool.py lines 38–60) on the
modelled value space: dicts and lists recurse (dict keys are already
strings, so `str(k)` is the identity); the pandas/numpy leaf conversions
concern types that cannot occur in these values. -/
def jsonSerializable : ToolVal → ToolVal
  | ToolVal.str s => ToolVal.str s
  | ToolVal.int i => ToolVal.int i
  | ToolVal.rat q => ToolVal.rat q
  | ToolVal.list xs => ToolVal.list (jsonSerializableList xs)
  | ToolVal.dict fs => ToolVal.dict (jsonSerializableFields fs)

/-- List branch of `_json_serializable`. -/
def jsonSerializableList : List ToolVal → List ToolVal
  | [] => []
  | x :: xs => jsonSerializable x :: jsonSerializableList xs

/-- Dict branch of `_json_serializable`. -/
def jsonSerializableFields : List (String × ToolVal) → List (String × ToolVal)
  | [] => []
  | (k, v) :: fs => (k, jsonSerializable v) :: jsonSerializableFields fs

end

mutual

/-- `_json_serializable` is the identity on the modelled value space. -/
theorem jsonSerializable_id : ∀ v : ToolVal, jsonSerializable v = v
  | ToolVal.str _ => rfl
  | ToolVal.int _ => rfl
  | ToolVal.rat _ => rfl
  | ToolVal.list xs => by rw [jsonSerializable, jsonSerializableList_id xs]
  | ToolVal.dict fs => by rw [jsonSerializable, jsonSerializableFields_id fs]

/-- List branch of `jsonSerializable_id`. -/
theorem jsonSerializableList_id : ∀ xs : List ToolVal, jsonSerializableList xs = xs
  | [] => rfl
  | x :: xs => by rw [jsonSerializableList, jsonSerializable_id x, jsonSerializableList_id xs]

/-- Dict branch of `jsonSerializable_id`. -/
theorem jsonSerializableFields_id :
    ∀ fs : List (String × ToolVal), jsonSerializableFields fs = fs
  | [] => rfl
  | (k, v) :: fs => by
    rw [jsonSerializableFields, jsonSerializable_id v, jsonSerializableFields_id fs]

end

/-- `MCPBaseTool._success_response` (base_tool.py lines 25–32): serialize
the payload inside a `try`; if serialization raises, return the error
object instead. `serialize` abstracts the `_json_serializable` call — it
can raise only on exotic pandas values outside the modelled space; the
modelled call itself is `pySerialize` below. -/
def successResponse (serialize : ToolDict → Except String ToolDict)
    (data : ToolDict) : ToolDict :=
  match serialize data with
  | Except.ok d => d
  | Except.error e => [("error", ToolVal.str ("数据处理失败: " ++ e))]

/-- The embedded `_json_serializable` as a (never-raising) serializer. -/
def pySerialize (d : ToolDict) : Except String ToolDict :=
  Except.ok (jsonSerializableFields d)

/-- `DETAIL_PERIOD` (historical_data_tool.py line 15). -/
def DETAIL_PERIOD : Nat := 5

/-- One row of the yfinance history frame: the date index plus the Open /
High / Low / Close / Volume columns (numeric values exact). -/
structure HistRow where
  date : String
  openP : Rat
  highP : Rat
  lowP : Rat
  closeP : Rat
  volume : Rat

instance : Inhabited HistRow := ⟨⟨"", 0, 0, 0, 0, 0⟩⟩

/-- `df["X"].max()` over a column. -/
def ratMax : List Rat → Rat
  | [] => 0
  | x :: xs => xs.foldl max x

/-- `df["X"].min()` over a column. -/
def ratMin : List Rat → Rat
  | [] => 0
  | x :: xs => xs.foldl min x

/-- `df["X"].mean()` over a column. -/
def ratMean (xs : List Rat) : Rat := xs.sum / (xs.length : Rat)

/-- Lines 76–79: `hist.tail(DETAIL_PERIOD) if len(hist) > DETAIL_PERIOD
else hist`. -/
def recentHist (hist : List HistRow) : List HistRow :=
  if hist.length > DETAIL_PERIOD then hist.drop (hist.length - DETAIL_PERIOD) else hist

/-- One `recent_data` entry (lines 80–90); `int(row["Volume"])` truncates
the (nonnegative) volume to an integer. -/
def recentEntry (r : HistRow) : ToolVal :=
  ToolVal.dict [("date", ToolVal.str r.date), ("open", ToolVal.rat r.openP),
    ("high", ToolVal.rat r.highP), ("low", ToolVal.rat r.lowP),
    ("close", ToolVal.rat r.closeP), ("volume", ToolVal.int r.volume.floor)]

/-- The `summary` dict of lines 58–90. The float standard deviation
`volatility` is abstracted as `volatilityOf` over the close column;
Python's `start_date or ...` falls back to the frame's first/last index
date exactly when the argument string is empty (falsy). -/
def histSummary (volatilityOf : List Rat → Rat)
    (ticker start_date end_date : String) (hist : List HistRow) : ToolDict :=
  [("ticker", ToolVal.str ticker),
   ("period_summary", ToolVal.dict
     [("start_date",
        ToolVal.str (if start_date = "" then (hist.headD default).date else start_date)),
      ("end_date",
        ToolVal.str (if end_date = "" then (hist.getLastD default).date else end_date)),
      ("total_days", ToolVal.int hist.length),
      ("current_price", ToolVal.rat (hist.getLastD default).closeP),
      ("period_high", ToolVal.rat (ratMax (hist.map (fun r => r.highP)))),
      ("period_low", ToolVal.rat (ratMin (hist.map (fun r => r.lowP)))),
      ("period_return",
        ToolVal.rat (((hist.getLastD default).closeP / (hist.headD default).closeP - 1) * 100)),
      ("avg_volume", ToolVal.rat (ratMean (hist.map (fun r => r.volume)))),
      ("volatility", ToolVal.rat (volatilityOf (hist.map (fun r => r.closeP))))]),
   ("recent_data", ToolVal.list ((recentHist hist).map recentEntry))]

/-- Result of `yf.Ticker(ticker).history(...)`: a raised exception or the
fetched data frame. -/
inductive FetchResult where
  | raises (msg : String)
  | rows (hist : List HistRow)

namespace MCPHistoricalDataTool

/-- Body of the `try` block of `execute` (historical_data_tool.py lines
50–93): a raised upstream exception propagates as `Except.error`; an empty
frame returns the error object by a normal `return`. -/
def executeBody (volatilityOf : List Rat → Rat)
    (serialize : ToolDict → Except String ToolDict) (fetch : FetchResult)
    (ticker start_date end_date : String) : Except String ToolDict :=
  match fetch with
  | FetchResult.raises msg => Except.error msg
  | FetchResult.rows hist =>
    if hist.length = 0 then Except.ok (errorResponse "未获取到数据")
    else Except.ok (successResponse serialize
      (histSummary volatilityOf ticker start_date end_date hist))

/-- `MCPHistoricalDataTool.execute` (lines 42–97): the `except Exception`
handler turns any raised exception into `_error_response(str(e))`. -/
def execute (volatilityOf : List Rat → Rat)
    (serialize : ToolDict → Except String ToolDict) (fetch : FetchResult)
    (ticker start_date end_date : String) : ToolDict :=
  match executeBody volatilityOf serialize fetch ticker start_date end_date with
  | Except.ok d => d
  | Except.error msg => errorResponse msg

end MCPHistoricalDataTool

/-- One row of the akshare A-share frame after the renaming of
zh_historical_data_tool.py lines 91–111 (`stock_code` dropped, the date
column already normalized to a `YYYY-MM-DD` string by line 115). -/
structure ZHRow where
  date : String
  openP : Rat
  closeP : Rat
  highP : Rat
  lowP : Rat
  volume : Rat
  amount : Rat
  amplitude : Rat
  pctChange : Rat
  change : Rat
  turnover : Rat

instance : Inhabited ZHRow := ⟨⟨"", 0, 0, 0, 0, 0, 0, 0, 0, 0, 0⟩⟩

/-- Result of `ak.stock_zh_a_hist(...)`: a raised exception, `None`, or
the fetched data frame. -/
inductive ZHFetchResult where
  | raises (msg : String)
  | noneDf
  | rows (df : List ZHRow)

/-- Lines 60–86: the adjust string actually passed to akshare — `"qfq"`
and `"hfq"` verbatim, anything else routed to the no-adjust call. -/
def adjustArg (adjust : String) : String :=
  if adjust == "qfq" then "qfq" else if adjust == "hfq" then "hfq" else ""

/-- `df.to_dict("records")` on one row, in renamed column order. -/
def zhRecord (r : ZHRow) : ToolVal :=
  ToolVal.dict [("date", ToolVal.str r.date), ("open", ToolVal.rat r.openP),
    ("close", ToolVal.rat r.closeP), ("high", ToolVal.rat r.highP),
    ("low", ToolVal.rat r.lowP), ("volume", ToolVal.rat r.volume),
    ("amount", ToolVal.rat r.amount), ("amplitude", ToolVal.rat r.amplitude),
    ("pct_change", ToolVal.rat r.pctChange), ("change", ToolVal.rat r.change),
    ("turnover", ToolVal.rat r.turnover)]

/-- The `stats` dict of lines 117–133 (akshare's fixed schema provides
every guarded column, so each `if "col" in df.columns` test holds). -/
def zhStats (df : List ZHRow) : ToolVal :=
  ToolVal.dict
    [("period_return", ToolVal.rat (if 0 < df.length then
        (((df.getLastD default).closeP / (df.headD default).closeP) - 1) * 100 else 0)),
     ("max_price", ToolVal.rat (ratMax (df.map (fun r => r.highP)))),
     ("min_price", ToolVal.rat (ratMin (df.map (fun r => r.lowP)))),
     ("avg_volume", ToolVal.rat (ratMean (df.map (fun r => r.volume)))),
     ("total_volume", ToolVal.rat ((df.map (fun r => r.volume)).sum)),
     ("trading_days", ToolVal.int df.length)]

/-- The `result` dict of lines 135–141. -/
def zhResult (code adjust start_date end_date : String) (df : List ZHRow) : ToolDict :=
  [("stock_code", ToolVal.str code),
   ("adjust_type", ToolVal.str adjust),
   ("period", ToolVal.str (start_date ++ " 到 " ++ end_date)),
   ("data", ToolVal.list (df.map zhRecord)),
   ("statistics", zhStats df)]

namespace ZHMCPHistoricalDataTool

/-- Body of the `try` block of `execute` (zh_historical_data_tool.py lines
55–144): strip the exchange suffix from the code, fetch with the
normalized adjust argument and the dates with dashes removed, return the
error object when akshare yields `None` or an empty frame, otherwise build
and serialize the result dict. -/
def executeBody (serialize : ToolDict → Except String ToolDict)
    (akFetch : String → String → String → String → ZHFetchResult)
    (code start_date end_date adjust : String) : Except String ToolDict :=
  let clean_code := (code.splitOn ".").headD code
  match akFetch clean_code (start_date.replace "-" "") (end_date.replace "-" "")
      (adjustArg adjust) with
  | ZHFetchResult.raises msg => Except.error msg
  | ZHFetchResult.noneDf =>
    Except.ok (errorResponse ("未找到股票代码 " ++ code ++ " 的历史数据"))
  | ZHFetchResult.rows df =>
    if df.length = 0 then
      Except.ok (errorResponse ("未找到股票代码 " ++ code ++ " 的历史数据"))
    else
      Except.ok (successResponse serialize (zhResult code adjust start_date end_date df))

/-- `ZHMCPHistoricalDataTool.execute` (lines 49–150): the `except
Exception` handler returns `获取历史数据失败: <e>`. -/
def execute (serialize : ToolDict → Except String ToolDict)
    (akFetch : String → String → String → String → ZHFetchResult)
    (code start_date end_date adjust : String) : ToolDict :=
  match executeBody serialize akFetch code start_date end_date adjust with
  | Except.ok d => d
  | Except.error msg => errorResponse ("获取历史数据失败: " ++ msg)

end ZHMCPHistoricalDataTool

/-- C8: a historical-data tool's `execute` never raises — it is a total
function into result dicts — and on every internal fault (a raised
upstream exception, an empty or missing upstream frame, a raised
serialization) it returns a mapping carrying the `error` key with a
message string, while on success it returns exactly the serialized
summary mapping. Stated for both the US (`MCPHistoricalDataTool`) and the
A-share (`ZHMCPHistoricalDataTool`) tools. -/
theorem claim_C8_tool_error_contract
    (volatilityOf : List Rat → Rat) (serialize : ToolDict → Except String ToolDict)
    (fetch : FetchResult) (ticker sd ed : String)
    (zserialize : ToolDict → Except String ToolDict)
    (akFetch : String → String → String → String → ZHFetchResult)
    (code zsd zed adjust : String) :
    ((∀ msg, fetch = FetchResult.raises msg →
        MCPHistoricalDataTool.execute volatilityOf serialize fetch ticker sd ed =
          errorResponse msg) ∧
      (fetch = FetchResult.rows [] →
        MCPHistoricalDataTool.execute volatilityOf serialize fetch ticker sd ed =
          errorResponse "未获取到数据") ∧
      (∀ hist em, fetch = FetchResult.rows hist → hist ≠ [] →
        serialize (histSummary volatilityOf ticker sd ed hist) = Except.error em →
        MCPHistoricalDataTool.execute volatilityOf serialize fetch ticker sd ed =
          errorResponse ("数据处理失败: " ++ em)) ∧
      (∀ hist out, fetch = FetchResult.rows hist → hist ≠ [] →
        serialize (histSummary volatilityOf ticker sd ed hist) = Except.ok out →
        MCPHistoricalDataTool.execute volatilityOf serialize fetch ticker sd ed = out)) ∧
    ((∀ msg, akFetch ((code.splitOn ".").headD code) (zsd.replace "-" "")
          (zed.replace "-" "") (adjustArg adjust) = ZHFetchResult.raises msg →
        ZHMCPHistoricalDataTool.execute zserialize akFetch code zsd zed adjust =
          errorResponse ("获取历史数据失败: " ++ msg)) ∧
      (akFetch ((code.splitOn ".").headD code) (zsd.replace "-" "")
          (zed.replace "-" "") (adjustArg adjust) = ZHFetchResult.noneDf →
        ZHMCPHistoricalDataTool.execute zserialize akFetch code zsd zed adjust =
          errorResponse ("未找到股票代码 " ++ code ++ " 的历史数据")) ∧
      (akFetch ((code.splitOn ".").headD code) (zsd.replace "-" "")
          (zed.replace "-" "") (adjustArg adjust) = ZHFetchResult.rows [] →
        ZHMCPHistoricalDataTool.execute zserialize akFetch code zsd zed adjust =
          errorResponse ("未找到股票代码 " ++ code ++ " 的历史数据")) ∧
      (∀ df em, akFetch ((code.splitOn ".").headD code) (zsd.replace "-" "")
          (zed.replace "-" "") (adjustArg adjust) = ZHFetchResult.rows df → df ≠ [] →
        zserialize (zhResult code adjust zsd zed df) = Except.error em →
        ZHMCPHistoricalDataTool.execute zserialize akFetch code zsd zed adjust =
          errorResponse ("数据处理失败: " ++ em)) ∧
      (∀ df out, akFetch ((code.splitOn ".").headD code) (zsd.replace "-" "")
          (zed.replace "-" "") (adjustArg adjust) = ZHFetchResult.rows df → df ≠ [] →
        zserialize (zhResult code adjust zsd zed df) = Except.ok out →
        ZHMCPHistoricalDataTool.execute zserialize akFetch code zsd zed adjust = out)) := by
  refine ⟨⟨?_, ?_, ?_, ?_⟩, ?_, ?_, ?_, ?_, ?_⟩
  · intro msg h
    subst h
    rfl
  · intro h
    subst h
    rfl
  · intro hist em hf hne hs
    subst hf
    simp only [MCPHistoricalDataTool.execute, MCPHistoricalDataTool.executeBody]
    rw [if_neg (by simpa using hne)]
    simp [successResponse, hs, errorResponse]
  · intro hist out hf hne hs
    subst hf
    simp only [MCPHistoricalDataTool.execute, MCPHistoricalDataTool.executeBody]
    rw [if_neg (by simpa using hne)]
    simp [successResponse, hs, errorResponse]
  · intro msg h
    simp only [ZHMCPHistoricalDataTool.execute, ZHMCPHistoricalDataTool.executeBody, h]
  · intro h
    simp only [ZHMCPHistoricalDataTool.execute, ZHMCPHistoricalDataTool.executeBody, h]
  · intro h
    simp only [ZHMCPHistoricalDataTool.execute, ZHMCPHistoricalDataTool.executeBody, h]
    rfl
  · intro df em hf hne hs
    simp only [ZHMCPHistoricalDataTool.execute, ZHMCPHistoricalDataTool.executeBody, hf]
    rw [if_neg (by simpa using hne)]
    simp [successResponse, hs, errorResponse]
  · intro df out hf hne hs
    simp only [ZHMCPHistoricalDataTool.execute, ZHMCPHistoricalDataTool.executeBody, hf]
    rw [if_neg (by simpa using hne)]
    simp [successResponse, hs, errorResponse]

/-- Witness for C8: a raised yfinance exception and a `None` akshare frame
both come back as `error` mappings. -/
theorem claim_C8_witness :
    MCPHistoricalDataTool.execute (fun _ => 0) pySerialize (FetchResult.raises "网络错误")
        "AAPL" "2024-01-01" "2024-02-01" = errorResponse "网络错误" ∧
      ZHMCPHistoricalDataTool.execute pySerialize (fun _ _ _ _ => ZHFetchResult.noneDf)
        "000001.SZ" "2024-01-01" "2024-02-01" "qfq" =
        errorResponse ("未找到股票代码 " ++ "000001.SZ" ++ " 的历史数据") := by
  have h := claim_C8_tool_error_contract (fun _ => 0) pySerialize
    (FetchResult.raises "网络错误") "AAPL" "2024-01-01" "2024-02-01" pySerialize
    (fun _ _ _ _ => ZHFetchResult.noneDf) "000001.SZ" "2024-01-01" "2024-02-01" "qfq"
  exact ⟨h.1.1 "网络错误" rfl, h.2.2.1 rfl⟩

/-- `hist.tail(5)` is always the drop of all but the last `DETAIL_PERIOD`
rows (for short frames the drop count is zero). -/
theorem recentHist_eq_drop (hist : List HistRow) :
    recentHist hist = hist.drop (hist.length - DETAIL_PERIOD) := by
  rw [recentHist]
  split
  · rfl
  next h =>
    have h0 : hist.length - DETAIL_PERIOD = 0 := by omega
    rw [h0, List.drop_zero]

/-- The recent window always holds `min n DETAIL_PERIOD` rows. -/
theorem recentHist_length (hist : List HistRow) :
    (recentHist hist).length = min hist.length DETAIL_PERIOD := by
  rw [recentHist_eq_drop, List.length_drop]
  omega

/-- The recent window is a suffix of the frame: the last rows of the
period, in their original chronological order. -/
theorem recentHist_suffix (hist : List HistRow) : recentHist hist <:+ hist := by
  rw [recentHist_eq_drop]
  exact List.drop_suffix _ _

/-- C10: every successful US historical-data result reports
`period_summary.total_days` equal to the full row count `n`, while
`recent_data` holds exactly `min n 5` entries — the last rows of the
period in chronological order (a suffix of the frame). The serializer is
the embedded `_json_serializable`, which is the identity here, so the
returned mapping is the summary itself. -/
theorem claim_C10_recent_data (volatilityOf : List Rat → Rat)
    (ticker sd ed : String) (hist : List HistRow) (hne : hist ≠ []) :
    MCPHistoricalDataTool.execute volatilityOf pySerialize (FetchResult.rows hist)
        ticker sd ed = histSummary volatilityOf ticker sd ed hist ∧
      lookupKey (histSummary volatilityOf ticker sd ed hist) "error" = none ∧
      (∃ ps, lookupKey (histSummary volatilityOf ticker sd ed hist) "period_summary" =
          some (ToolVal.dict ps) ∧
        lookupKey ps "total_days" = some (ToolVal.int hist.length)) ∧
      lookupKey (histSummary volatilityOf ticker sd ed hist) "recent_data" =
        some (ToolVal.list ((recentHist hist).map recentEntry)) ∧
      ((recentHist hist).map recentEntry).length = min hist.length DETAIL_PERIOD ∧
      recentHist hist <:+ hist := by
  refine ⟨?_, rfl, ⟨_, rfl, rfl⟩, rfl, ?_, recentHist_suffix hist⟩
  · simp only [MCPHistoricalDataTool.execute, MCPHistoricalDataTool.executeBody]
    rw [if_neg (by simpa using hne)]
    simp [successResponse, pySerialize, jsonSerializableFields_id]
  · rw [List.length_map]
    exact recentHist_length hist

/-- Witness for C10 on a seven-row frame (`min 7 5 = 5` recent entries). -/
theorem claim_C10_witness :
    MCPHistoricalDataTool.execute (fun _ => 0) pySerialize
        (FetchResult.rows (List.range 7 |>.map
          (fun i => ⟨toString i, 1, 2, 3, 4, 5⟩))) "AAPL" "2024-01-01" "2024-02-01" =
      histSummary (fun _ => 0) "AAPL" "2024-01-01" "2024-02-01"
        (List.range 7 |>.map (fun i => ⟨toString i, 1, 2, 3, 4, 5⟩)) ∧
      lookupKey (histSummary (fun _ => 0) "AAPL" "2024-01-01" "2024-02-01"
          (List.range 7 |>.map (fun i => ⟨toString i, 1, 2, 3, 4, 5⟩))) "error" = none ∧
      (∃ ps, lookupKey (histSummary (fun _ => 0) "AAPL" "2024-01-01" "2024-02-01"
            (List.range 7 |>.map (fun i => ⟨toString i, 1, 2, 3, 4, 5⟩))) "period_summary" =
          some (ToolVal.dict ps) ∧
        lookupKey ps "total_days" =
          some (ToolVal.int (List.range 7 |>.map
            (fun i => (⟨toString i, 1, 2, 3, 4, 5⟩ : HistRow))).length)) ∧
      lookupKey (histSummary (fun _ => 0) "AAPL" "2024-01-01" "2024-02-01"
          (List.range 7 |>.map (fun i => ⟨toString i, 1, 2, 3, 4, 5⟩))) "recent_data" =
        some (ToolVal.list ((recentHist (List.range 7 |>.map
          (fun i => ⟨toString i, 1, 2, 3, 4, 5⟩))).map recentEntry)) ∧
      ((recentHist (List.range 7 |>.map
          (fun i => ⟨toString i, 1, 2, 3, 4, 5⟩))).map recentEntry).length =
        min (List.range 7 |>.map (fun i => (⟨toString i, 1, 2, 3, 4, 5⟩ : HistRow))).length
          DETAIL_PERIOD ∧
      recentHist (List.range 7 |>.map (fun i => ⟨toString i, 1, 2, 3, 4, 5⟩)) <:+
        (List.range 7 |>.map (fun i => ⟨toString i, 1, 2, 3, 4, 5⟩)) :=
  claim_C10_recent_data (fun _ => 0) "AAPL" "2024-01-01" "2024-02-01"
    (List.range 7 |>.map (fun i => ⟨toString i, 1, 2, 3, 4, 5⟩)) (by simp)
